import Mathlib

/-!
Verification development for the appsec remote-configuration subsystem of
dd-trace-go: the ruleset compiler (`internal/appsec/ruleset_builder.go`) and
the remote-config update dispatcher (`onRCUpdate`, `handleASMFeatures`,
`mergeRulesData`, `mergeRulesDataEntries`).

Go maps are embedded as association lists (`List (K × V)`): assignment
`m[k] = v` replaces the binding in place or appends it, `delete` removes it,
and lookup returns the first binding.  Go's `range` iteration over a map has
unspecified order; wherever the source iterates a map, the embedding either
iterates the association list in list order (a fixed admissible order) or,
where the claim under study is order-sensitive, exposes the iteration order
as an explicit parameter ranging over permutations of the key set.

Raw configuration payloads are external byte strings whose only use in the
source is `json.Unmarshal` into one of three target types; a payload is
therefore embedded as the record of those three (deterministic) parse
results.  `json.Marshal` of the ruleset structs is embedded as a concrete
compact-JSON printer following the struct tags of the source (field order as
declared, `omitempty` semantics).
-/

set_option autoImplicit false

namespace DDTrace

/-- Go map lookup `m[k]`: first binding of `k` in the association list. -/
def mapLookup {K V : Type} [DecidableEq K] (m : List (K × V)) (k : K) : Option V :=
  match m with
  | [] => none
  | (k0, v0) :: tl => if k0 = k then some v0 else mapLookup tl k

/-- Go map assignment `m[k] = v`: replace the binding in place, else append. -/
def mapInsert {K V : Type} [DecidableEq K] (m : List (K × V)) (k : K) (v : V) :
    List (K × V) :=
  match m with
  | [] => [(k, v)]
  | (k0, v0) :: tl => if k0 = k then (k, v) :: tl else (k0, v0) :: mapInsert tl k v

/-- Go `delete(m, k)`: remove the binding of `k`. -/
def mapDelete {K V : Type} [DecidableEq K] (m : List (K × V)) (k : K) :
    List (K × V) :=
  m.filter (fun kv => kv.1 ≠ k)

/-- `mergeMaps` from the source: a fresh map receiving every binding of `m1`
then every binding of `m2` (so `m2` wins on common keys). -/
def mergeMaps {K V : Type} [DecidableEq K] (m1 m2 : List (K × V)) :
    List (K × V) :=
  m2.foldl (fun acc kv => mapInsert acc kv.1 kv.2)
    (m1.foldl (fun acc kv => mapInsert acc kv.1 kv.2) [])

/-- An opaque JSON value (a Go `interface\x7b\x7d` field the code never
inspects), carried as its compact serialization. -/
structure JsonValue where
  compact : String
  deriving DecidableEq, Repr

/-- Compact-JSON string quoting (the payload strings in play contain no
characters needing escapes). -/
def quoteJson (s : String) : String := "\"" ++ s ++ "\""

/-- Compact-JSON array from already-serialized elements. -/
def jsonArr (xs : List String) : String :=
  "[" ++ String.intercalate "," xs ++ "]"

/-- Compact-JSON object from already-serialized field values. -/
def jsonObj (fields : List (String × String)) : String :=
  "\x7b" ++ String.intercalate "," (fields.map fun kv => quoteJson kv.1 ++ ":" ++ kv.2) ++ "\x7d"

/-- `ruleEntry` of ruleset_builder.go (tags: id, name, tags, conditions,
transformers, on_match omitempty).  The fields the code never inspects are
opaque JSON values. -/
structure ruleEntry where
  ID : String
  Name : String
  Tags : JsonValue
  Conditions : JsonValue
  Transformers : JsonValue
  OnMatch : List JsonValue
  deriving DecidableEq, Repr

/-- `rulesOverrideEntry` of ruleset_builder.go.  `RulesTarget` is a Go slice
whose nil / non-nil distinction is observable (`validate` tests `!= nil`), so
it is embedded as `Option (List JsonValue)` (`none` = nil slice). -/
structure rulesOverrideEntry where
  ID : String
  RulesTarget : Option (List JsonValue)
  Enabled : Bool
  OnMatch : Option JsonValue
  deriving DecidableEq, Repr

/-- `exclusionEntry` of ruleset_builder.go: only the lengths of its slices are
observed, so they are plain lists. -/
structure exclusionEntry where
  ID : String
  Conditions : List JsonValue
  Inputs : List JsonValue
  RulesTarget : List JsonValue
  deriving DecidableEq, Repr

/-- `rc.ASMDataRuleDataEntry` (tags: value, expiration). -/
structure ASMDataRuleDataEntry where
  Value : String
  Expiration : Int
  deriving DecidableEq, Repr

/-- `ruleDataEntry` = `rc.ASMDataRuleData` (tags: id, type, data).  The Go
field `Type` is named `Typ` here (`Type` is reserved in Lean). -/
structure ruleDataEntry where
  ID : String
  Typ : String
  Data : List ASMDataRuleDataEntry
  deriving DecidableEq, Repr

/-- `rulesData` of ruleset_builder.go: the unmarshalling target for an
ASM_DATA payload. -/
structure rulesData where
  RulesData : List ruleDataEntry
  deriving DecidableEq, Repr

/-- `rulesetFragment` of ruleset_builder.go (also named `rulesFragment` at the
dispatcher's revision): a full ruleset or a fragment of it. -/
structure rulesetFragment where
  Version : String
  Metadata : Option JsonValue
  Rules : List ruleEntry
  Overrides : List rulesOverrideEntry
  Exclusions : List exclusionEntry
  RulesData : List ruleDataEntry
  Actions : List JsonValue
  deriving DecidableEq, Repr

/-- The zero value of the `rulesFragment` Go struct. -/
def rulesetFragment.empty : rulesetFragment :=
  { Version := "", Metadata := none, Rules := [], Overrides := [],
    Exclusions := [], RulesData := [], Actions := [] }

/-- `validate` of `rulesOverrideEntry`: `len(o.ID) > 0 || o.RulesTarget != nil`. -/
def rulesOverrideEntry.validate (o : rulesOverrideEntry) : Bool :=
  decide (0 < o.ID.length) || o.RulesTarget.isSome

/-- `validate` of `exclusionEntry`:
`len(e.Inputs) > 0 || len(e.Conditions) > 0 || len(e.RulesTarget) > 0`. -/
def exclusionEntry.validate (e : exclusionEntry) : Bool :=
  decide (0 < e.Inputs.length) || decide (0 < e.Conditions.length) ||
    decide (0 < e.RulesTarget.length)

/-- `validate` of `rulesetFragment`: the source loops over `Overrides` then
`Exclusions`, returning false at the first entry failing its own `validate`;
that loop is exactly `List.all`. -/
def rulesetFragment.validate (r_ : rulesetFragment) : Bool :=
  r_.Overrides.all rulesOverrideEntry.validate &&
    r_.Exclusions.all exclusionEntry.validate

/-- `json.Marshal` of a `ruleEntry` per its struct tags. -/
def ruleEntry.marshal (r_ : ruleEntry) : String :=
  jsonObj ([("id", quoteJson r_.ID), ("name", quoteJson r_.Name),
    ("tags", r_.Tags.compact), ("conditions", r_.Conditions.compact),
    ("transformers", r_.Transformers.compact)] ++
    (if r_.OnMatch.isEmpty then []
     else [("on_match", jsonArr (r_.OnMatch.map JsonValue.compact))]))

/-- `json.Marshal` of a `rulesOverrideEntry` per its struct tags (every field
`omitempty`). -/
def rulesOverrideEntry.marshal (o : rulesOverrideEntry) : String :=
  jsonObj ((if o.ID = "" then [] else [("id", quoteJson o.ID)]) ++
    (match o.RulesTarget with
     | none => []
     | some ts =>
       if ts.isEmpty then [] else [("rules_target", jsonArr (ts.map JsonValue.compact))]) ++
    (if o.Enabled then [("enabled", "true")] else []) ++
    (match o.OnMatch with
     | none => []
     | some v => [("on_match", v.compact)]))

/-- `json.Marshal` of an `exclusionEntry` per its struct tags. -/
def exclusionEntry.marshal (e : exclusionEntry) : String :=
  jsonObj ([("id", quoteJson e.ID)] ++
    (if e.Conditions.isEmpty then []
     else [("conditions", jsonArr (e.Conditions.map JsonValue.compact))]) ++
    (if e.Inputs.isEmpty then []
     else [("inputs", jsonArr (e.Inputs.map JsonValue.compact))]) ++
    (if e.RulesTarget.isEmpty then []
     else [("rules_target", jsonArr (e.RulesTarget.map JsonValue.compact))]))

/-- `json.Marshal` of an `ASMDataRuleDataEntry`. -/
def ASMDataRuleDataEntry.marshal (e : ASMDataRuleDataEntry) : String :=
  jsonObj [("value", quoteJson e.Value), ("expiration", toString e.Expiration)]

/-- `json.Marshal` of a `ruleDataEntry`. -/
def ruleDataEntry.marshal (d : ruleDataEntry) : String :=
  jsonObj [("id", quoteJson d.ID), ("type", quoteJson d.Typ),
    ("data", jsonArr (d.Data.map ASMDataRuleDataEntry.marshal))]

/-- `json.Marshal` of a `rulesetFragment` per its struct tags (field order as
declared, every field `omitempty`). -/
def rulesetFragment.marshal (r_ : rulesetFragment) : String :=
  jsonObj ((if r_.Version = "" then [] else [("version", quoteJson r_.Version)]) ++
    (match r_.Metadata with
     | none => []
     | some v => [("metadata", v.compact)]) ++
    (if r_.Rules.isEmpty then []
     else [("rules", jsonArr (r_.Rules.map ruleEntry.marshal))]) ++
    (if r_.Overrides.isEmpty then []
     else [("rules_override", jsonArr (r_.Overrides.map rulesOverrideEntry.marshal))]) ++
    (if r_.Exclusions.isEmpty then []
     else [("exclusions", jsonArr (r_.Exclusions.map exclusionEntry.marshal))]) ++
    (if r_.RulesData.isEmpty then []
     else [("rules_data", jsonArr (r_.RulesData.map ruleDataEntry.marshal))]) ++
    (if r_.Actions.isEmpty then []
     else [("actions", jsonArr (r_.Actions.map JsonValue.compact))]))

/-- Modelled from the spec: the embedded default security rules
(`staticRecommendedRules` / `defaultRulesFragment()` are not under src/).  The
spec treats the embedded document as an opaque static blob with a non-empty
rule list; the concrete content below stands for it. -/
def defaultRulesFragment : rulesetFragment :=
  { rulesetFragment.empty with
    Version := "2.2",
    Rules := [{ ID := "default-rule", Name := "default", Tags := ⟨"\x7b\x7d"⟩,
                Conditions := ⟨"[]"⟩, Transformers := ⟨"[]"⟩, OnMatch := [] }] }

/-- `ruleset` of ruleset_builder.go (named `rulesManager` at the dispatcher's
revision): base fragment, its config path, the named edits, and the cached
latest compilation. -/
structure ruleset where
  latest : rulesetFragment
  base : rulesetFragment
  basePath : String
  edits : List (String × rulesetFragment)
  deriving DecidableEq, Repr

/-- Modelled from the spec: `clone` (not under src/) returns a deep-enough
copy such that mutating the clone never affects the original; with fully
value-semantic state the copy is the value itself. -/
def ruleset.clone (r : ruleset) : ruleset := r

/-- Modelled from the spec: `addEdit` (not under src/) inserts the fragment
into the edits mapping keyed by config identifier. -/
def ruleset.addEdit (r : ruleset) (name : String) (f : rulesetFragment) : ruleset :=
  { r with edits := mapInsert r.edits name f }

/-- Modelled from the spec: `removeEdit` (not under src/) removes the named
entry from the edits mapping. -/
def ruleset.removeEdit (r : ruleset) (name : String) : ruleset :=
  { r with edits := mapDelete r.edits name }

/-- Modelled from the spec: `changeBase` (not under src/) replaces `base` and
`basePath`. -/
def ruleset.changeBase (r : ruleset) (f : rulesetFragment) (path : String) : ruleset :=
  { r with base := f, basePath := path }

/-- `compile` of ruleset_builder.go, with the unspecified-order `range` over
the `edits` map exposed as the explicit key order `order`: reset the base to
the embedded default when it has no rules, then concatenate each edit's
`Overrides`, `Exclusions` and `Actions` onto the base.  An admissible `order`
is a permutation of the keys of `edits`. -/
def ruleset.compileWithOrder (r : ruleset) (order : List String) : ruleset :=
  let base := if r.base.Rules.isEmpty then defaultRulesFragment else r.base
  let latest := order.foldl (fun acc k =>
    match mapLookup r.edits k with
    | some v =>
      { acc with Overrides := acc.Overrides ++ v.Overrides,
                 Exclusions := acc.Exclusions ++ v.Exclusions,
                 Actions := acc.Actions ++ v.Actions }
    | none => acc) base
  { r with base := base, latest := latest }

/-- `compile` with the association list's own key order as the iteration
order (one admissible order of the Go map `range`). -/
def ruleset.compile (r : ruleset) : ruleset :=
  r.compileWithOrder (r.edits.map Prod.fst)

/-- `raw` of ruleset_builder.go: compact JSON of the cached `latest`. -/
def ruleset.raw (r : ruleset) : String :=
  r.latest.marshal

/-- `rc.ApplyState`: the three apply states of the remote-config protocol. -/
inductive ApplyState where
  | unacknowledged
  | acknowledged
  | error
  deriving DecidableEq, Repr

/-- `rc.ApplyStatus`: an apply state plus an error message (empty when none). -/
structure ApplyStatus where
  State : ApplyState
  Error : String
  deriving DecidableEq, Repr

/-- `genApplyStatus` of the dispatcher: unacknowledged by default, error (with
message) when an error is present, else acknowledged when `ack`. -/
def genApplyStatus (ack : Bool) (err : Option String) : ApplyStatus :=
  match err with
  | some e => { State := ApplyState.error, Error := e }
  | none =>
    if ack then { State := ApplyState.acknowledged, Error := "" }
    else { State := ApplyState.unacknowledged, Error := "" }

/-- `rc.ASMFeatures`: the activation flag. -/
structure ASMFeatures where
  Enabled : Bool
  deriving DecidableEq, Repr

/-- `rc.ASMFeaturesData`: the unmarshalling target of an ASM_FEATURES payload. -/
structure ASMFeaturesData where
  ASM : ASMFeatures
  deriving DecidableEq, Repr

/-- A raw configuration payload: external bytes, abstracted as the record of
the three deterministic `json.Unmarshal` results the dispatcher can request
of it. -/
structure RawPayload where
  parseFragment : Except String rulesetFragment
  parseFeatures : Except String ASMFeaturesData
  parseRulesData : Except String rulesData

/-- `remoteconfig.ProductUpdate`: config path to raw payload or nil. -/
abbrev ProductUpdate : Type := List (String × Option RawPayload)

/-- The per-config status map returned to the transport layer. -/
abbrev StatusMap : Type := List (String × ApplyStatus)

/-- `statusesFromUpdate`: one identical status per config path of the update. -/
def statusesFromUpdate (u : ProductUpdate) (ack : Bool) (err : Option String) :
    StatusMap :=
  u.map (fun kv => (kv.1, genApplyStatus ack err))

/-- `rc.ProductASMFeatures`. -/
def ProductASMFeatures : String := "ASM_FEATURES"
/-- `rc.ProductASMData`. -/
def ProductASMData : String := "ASM_DATA"
/-- `rc.ProductASMDD`. -/
def ProductASMDD : String := "ASM_DD"
/-- `rc.ProductASM`. -/
def ProductASM : String := "ASM"

/-- The batch delivered by the transport layer: category name to product
update. -/
abbrev UpdateMap : Type := List (String × ProductUpdate)

/-- `mergeRulesDataEntries` of the dispatcher: insert every entry of
`entries1` into a fresh value-keyed map, then insert an entry of `entries2`
only when its value is absent, its expiration is 0, or its expiration exceeds
the stored one; finally list the map out. -/
def mergeRulesDataEntries (entries1 entries2 : List ASMDataRuleDataEntry) :
    List ASMDataRuleDataEntry :=
  let mergeMap := entries1.foldl (fun m e => mapInsert m e.Value e.Expiration)
    ([] : List (String × Int))
  let mergeMap := entries2.foldl (fun m e =>
    match mapLookup m e.Value with
    | none => mapInsert m e.Value e.Expiration
    | some exp =>
      if e.Expiration = 0 ∨ exp < e.Expiration then mapInsert m e.Value e.Expiration
      else m) mergeMap
  mergeMap.map (fun kv => { Value := kv.1, Expiration := kv.2 })

/-- The grouping map `allRulesData[ID][Type]` of `mergeRulesData`. -/
abbrev AllRulesData : Type := List (String × List (String × ruleDataEntry))

/-- The per-config loop of `mergeRulesData`: a nil payload only downgrades the
config's status to unacknowledged; a parse failure records an error status; a
parsed payload folds its entries into the grouping map, merging entries that
share id and type. -/
def mergeRulesDataLoop (items : List (String × Option RawPayload))
    (all : AllRulesData) (statuses : StatusMap) : AllRulesData × StatusMap :=
  match items with
  | [] => (all, statuses)
  | (path, raw) :: tl =>
    match raw with
    | none =>
      mergeRulesDataLoop tl all (mapInsert statuses path (genApplyStatus false none))
    | some payload =>
      match payload.parseRulesData with
      | Except.error e =>
        mergeRulesDataLoop tl all (mapInsert statuses path (genApplyStatus false (some e)))
      | Except.ok rd =>
        let all := rd.RulesData.foldl (fun acc entry =>
          let inner := (mapLookup acc entry.ID).getD []
          match mapLookup inner entry.Typ with
          | some data =>
            mapInsert acc entry.ID (mapInsert inner entry.Typ
              { data with Data := mergeRulesDataEntries data.Data entry.Data })
          | none => mapInsert acc entry.ID (mapInsert inner entry.Typ entry)) all
        mergeRulesDataLoop tl all statuses

/-- `mergeRulesData` of the dispatcher: group the batch's entries by
`(id, type)` across all configs, then flatten the grouping map; statuses start
acknowledged and are downgraded per config by the loop. -/
def mergeRulesData (u : ProductUpdate) : List ruleDataEntry × StatusMap :=
  let (all, statuses) := mergeRulesDataLoop u [] (statusesFromUpdate u true none)
  (all.foldl (fun acc kv => acc ++ kv.2.map Prod.snd) [], statuses)

/-- The dispatcher-side state of the `appsec` struct: the committed ruleset
(`a.cfg.rulesManager`) and the engine activation flag (`a.started`). -/
structure AppsecState where
  rulesManager : ruleset
  started : Bool
  deriving DecidableEq, Repr

/-- Modelled from the spec: the external collaborators of the dispatcher that
are not under src/ — `a.swapWAF` (hand-off of the serialized document to the
rule-evaluation engine, returning an error or success per document) and
`a.start` (engine start attempt, which may fail).  `a.stop` is infallible and
is embedded directly as setting `started := false`. -/
structure Env where
  swapWAF : String → Option String
  start : Option String

/-- The per-config loop of `handleASMFeatures`: a nil payload stops the engine
and returns at once (leaving the statuses as they stand); otherwise the parsed
flag starts or stops the engine, a parse or start failure downgrading the
config's status. -/
def handleASMFeaturesLoop (a : AppsecState) (env : Env)
    (items : List (String × Option RawPayload)) (statuses : StatusMap) :
    AppsecState × StatusMap :=
  match items with
  | [] => (a, statuses)
  | (path, raw) :: tl =>
    match raw with
    | none => ({ a with started := false }, statuses)
    | some payload =>
      match payload.parseFeatures with
      | Except.error e =>
        handleASMFeaturesLoop a env tl
          (mapInsert statuses path (genApplyStatus false (some e)))
      | Except.ok data =>
        if data.ASM.Enabled && !a.started then
          match env.start with
          | none =>
            handleASMFeaturesLoop { a with started := true } env tl
              (mapInsert statuses path { State := ApplyState.acknowledged, Error := "" })
          | some e =>
            handleASMFeaturesLoop a env tl
              (mapInsert statuses path (genApplyStatus false (some e)))
        else if !data.ASM.Enabled && a.started then
          handleASMFeaturesLoop { a with started := false } env tl
            (mapInsert statuses path { State := ApplyState.acknowledged, Error := "" })
        else
          handleASMFeaturesLoop a env tl
            (mapInsert statuses path { State := ApplyState.acknowledged, Error := "" })

/-- `handleASMFeatures` of the dispatcher: all statuses start unacknowledged;
more than one config returns them unchanged; otherwise the loop above runs. -/
def handleASMFeatures (a : AppsecState) (env : Env) (u : ProductUpdate) :
    AppsecState × StatusMap :=
  let statuses := statusesFromUpdate u false none
  if 1 < u.length then (a, statuses)
  else handleASMFeaturesLoop a env u statuses

/-- The ASM_DD per-config loop of `onRCUpdate` (reached only when the category
has at most one config): a nil payload resets the base to the embedded default
(setting no status) and breaks; a parse failure records an error status and
breaks; a parsed base is installed via `changeBase` and acknowledged. -/
def asmDDLoop (r : ruleset) (statuses : StatusMap)
    (items : List (String × Option RawPayload)) : ruleset × StatusMap :=
  match items with
  | [] => (r, statuses)
  | (path, data) :: tl =>
    match data with
    | none => (r.changeBase defaultRulesFragment "", statuses)
    | some payload =>
      match payload.parseFragment with
      | Except.error e => (r, mapInsert statuses path (genApplyStatus true (some e)))
      | Except.ok newBase =>
        asmDDLoop (r.changeBase newBase path)
          (mapInsert statuses path (genApplyStatus true none)) tl

/-- The ASM per-config loop of `onRCUpdate`: each config is first acknowledged;
a nil payload removes the edit; a parse failure overwrites the status with the
parse error; a parsed fragment failing `validate` leaves the status produced by
`genApplyStatus true` of the (nil) unmarshalling error; otherwise the fragment
is added as an edit. -/
def asmLoop (r : ruleset) (statuses : StatusMap)
    (items : List (String × Option RawPayload)) : ruleset × StatusMap :=
  match items with
  | [] => (r, statuses)
  | (path, data) :: tl =>
    let statuses := mapInsert statuses path (genApplyStatus true none)
    match data with
    | none => asmLoop (r.removeEdit path) statuses tl
    | some payload =>
      match payload.parseFragment with
      | Except.error e =>
        asmLoop r (mapInsert statuses path (genApplyStatus true (some e))) tl
      | Except.ok f =>
        if f.validate then asmLoop (r.addEdit path f) statuses tl
        else asmLoop r (mapInsert statuses path (genApplyStatus true none)) tl

/-- One arm of the category switch of `onRCUpdate`: ASM_DATA wraps the batch
merge as the synthetic edit `asmdata`; ASM_DD with more than one config yields
an error status for each of its configs and leaves the ruleset untouched, else
the ASM_DD loop runs; ASM runs the edit loop; any other category is ignored. -/
def processProduct (r : ruleset) (statuses : StatusMap) (p : String)
    (u : ProductUpdate) : ruleset × StatusMap :=
  if p = ProductASMData then
    let (rd, status) := mergeRulesData u
    (r.addEdit "asmdata" { rulesetFragment.empty with RulesData := rd },
      mergeMaps statuses status)
  else if p = ProductASMDD then
    if 1 < u.length then
      (r, mergeMaps statuses
        (statusesFromUpdate u true (some "More than one config received for ASM_DD")))
    else asmDDLoop r statuses u
  else if p = ProductASM then
    asmLoop r statuses u
  else (r, statuses)

/-- The staged (pre-hand-off) outcome of `onRCUpdate`: engine state after the
activation handling, the statuses computed in the batch, the (possibly
mutated) input batch map, and the compiled working clone. -/
structure StageResult where
  state : AppsecState
  statuses : StatusMap
  updates : UpdateMap
  working : ruleset

/-- Everything `onRCUpdate` does before the hand-off: clone the committed
ruleset, extract and handle the activation category (deleting it from the
caller's batch map), fold the category switch over the remaining categories,
and compile the working clone. -/
def onRCUpdateStage (a : AppsecState) (env : Env) (updates : UpdateMap) :
    StageResult :=
  let r := a.rulesManager.clone
  let afterFeatures :=
    match mapLookup updates ProductASMFeatures with
    | some u =>
      let hs := handleASMFeatures a env u
      (hs.1, mergeMaps [] hs.2, mapDelete updates ProductASMFeatures)
    | none => (a, ([] : StatusMap), updates)
  let folded := afterFeatures.2.2.foldl
    (fun (acc : ruleset × StatusMap) pu => processProduct acc.1 acc.2 pu.1 pu.2)
    (r, afterFeatures.2.1)
  { state := afterFeatures.1, statuses := folded.2, updates := afterFeatures.2.2,
    working := folded.1.compile }

/-- `onRCUpdate` of the dispatcher: stage the batch on a working clone, hand
the serialized compilation to the rule-evaluation engine; on failure every
status of the batch is downgraded to that error and the committed ruleset is
kept, on success the working clone is committed.  The returned triple is the
engine/ruleset state, the status map, and the caller's batch map (which the
source mutates in place). -/
def onRCUpdate (a : AppsecState) (env : Env) (updates : UpdateMap) :
    AppsecState × StatusMap × UpdateMap :=
  match env.swapWAF (onRCUpdateStage a env updates).working.raw with
  | some err =>
    ((onRCUpdateStage a env updates).state,
     (onRCUpdateStage a env updates).statuses.map
       (fun kv => (kv.1, genApplyStatus true (some err))),
     (onRCUpdateStage a env updates).updates)
  | none =>
    ({ (onRCUpdateStage a env updates).state with
        rulesManager := (onRCUpdateStage a env updates).working },
     (onRCUpdateStage a env updates).statuses,
     (onRCUpdateStage a env updates).updates)

/-- The fragment validity predicate as the specification words it: every
overrides entry carries a non-empty identifier or a non-empty target list,
every exclusions entry at least one of non-empty conditions, inputs, or
target list.  Stated for comparison against `rulesetFragment.validate` from
the source. -/
def specFragmentValid (r_ : rulesetFragment) : Bool :=
  r_.Overrides.all (fun o =>
    decide (0 < o.ID.length) || decide (0 < (o.RulesTarget.getD []).length)) &&
  r_.Exclusions.all (fun e =>
    decide (0 < e.Conditions.length) || decide (0 < e.Inputs.length) ||
      decide (0 < e.RulesTarget.length))

/-- Concrete override entry contributed by the edit named `a`. -/
def ovA : rulesOverrideEntry :=
  { ID := "oa", RulesTarget := none, Enabled := false, OnMatch := none }

/-- Concrete override entry contributed by the edit named `b`. -/
def ovB : rulesOverrideEntry :=
  { ID := "ob", RulesTarget := none, Enabled := false, OnMatch := none }

/-- Concrete edit fragment named `a`. -/
def fragA : rulesetFragment := { rulesetFragment.empty with Overrides := [ovA] }

/-- Concrete edit fragment named `b`. -/
def fragB : rulesetFragment := { rulesetFragment.empty with Overrides := [ovB] }

/-- An override entry with an empty identifier and an empty-but-present
target list (the unmarshalling of `"rules_target": []`). -/
def ovEmptyTarget : rulesOverrideEntry :=
  { ID := "", RulesTarget := some [], Enabled := false, OnMatch := none }

/-- Fragment holding only `ovEmptyTarget`. -/
def fEmptyTarget : rulesetFragment :=
  { rulesetFragment.empty with Overrides := [ovEmptyTarget] }

/-- An override entry with an empty identifier and a nil target list: fails
`validate`. -/
def ovInvalid : rulesOverrideEntry :=
  { ID := "", RulesTarget := none, Enabled := false, OnMatch := none }

/-- Fragment holding only `ovInvalid`: fails `validate` but unmarshals fine. -/
def fInvalid : rulesetFragment :=
  { rulesetFragment.empty with Overrides := [ovInvalid] }

/-- A concrete committed ruleset: the embedded default base plus the two
edits `a` and `b`. -/
def r0 : ruleset :=
  { latest := rulesetFragment.empty, base := defaultRulesFragment,
    basePath := "", edits := [("a", fragA), ("b", fragB)] }

/-- A payload that unmarshals (as a rules fragment) to `fragA`. -/
def pGood : RawPayload :=
  { parseFragment := Except.ok fragA, parseFeatures := Except.error "not features",
    parseRulesData := Except.error "not rules data" }

/-- A payload that unmarshals (as a rules fragment) to `fInvalid`: parse
succeeds, structural validation fails. -/
def pInvalid : RawPayload :=
  { parseFragment := Except.ok fInvalid, parseFeatures := Except.error "not features",
    parseRulesData := Except.error "not rules data" }

/-- A concrete dispatcher state: committed ruleset `r0`, engine started. -/
def a0 : AppsecState := { rulesManager := r0, started := true }

/-- Environment whose rule-evaluation engine accepts every document. -/
def envAccept : Env := { swapWAF := fun _ => none, start := none }

/-- Environment whose rule-evaluation engine rejects every document. -/
def envReject : Env := { swapWAF := fun _ => some "waf rejected", start := none }

/-- A batch carrying an activation-toggle removal plus an ordinary ASM edit. -/
def upd8 : UpdateMap :=
  [(ProductASMFeatures, [("cfgF", none)]), (ProductASM, [("cfgA", some pGood)])]

/-- A batch carrying a single valid ASM edit. -/
def updC1 : UpdateMap := [(ProductASM, [("cfgA", some pGood)])]

/-- An ASM_DD category carrying two configs at once. -/
def uTwoDD : ProductUpdate := [("p1", none), ("p2", none)]

/-- A rules-data category: one removal marker plus one config. -/
def uData : ProductUpdate := [("c", none), ("d", some pGood)]

section MapLemmas

variable {K V : Type} [DecidableEq K]

theorem mapLookup_mapInsert_self (m : List (K × V)) (k : K) (v : V) :
    mapLookup (mapInsert m k v) k = some v := by
  induction m with
  | nil => simp [mapInsert, mapLookup]
  | cons hd tl ih =>
    by_cases h : hd.1 = k
    · simp [mapInsert, mapLookup, h]
    · simp [mapInsert, mapLookup, h, ih]

theorem mapLookup_mapInsert_ne (m : List (K × V)) (k k' : K) (v : V)
    (h : k ≠ k') :
    mapLookup (mapInsert m k v) k' = mapLookup m k' := by
  induction m with
  | nil => simp [mapInsert, mapLookup, h]
  | cons hd tl ih =>
    by_cases hk : hd.1 = k
    · simp [mapInsert, mapLookup, hk, h]
    · simp [mapInsert, mapLookup, hk, ih]

theorem mapLookup_mapDelete_self (m : List (K × V)) (k : K) :
    mapLookup (mapDelete m k) k = none := by
  induction m with
  | nil => simp [mapDelete, mapLookup]
  | cons hd tl ih =>
    by_cases h : hd.1 = k
    · simpa [mapDelete, mapLookup, h] using ih
    · simpa [mapDelete, mapLookup, h] using ih

theorem mapLookup_mapDelete_ne (m : List (K × V)) (k k' : K) (h : k ≠ k') :
    mapLookup (mapDelete m k) k' = mapLookup m k' := by
  induction m with
  | nil => simp [mapDelete, mapLookup]
  | cons hd tl ih =>
    by_cases hk : hd.1 = k
    · have hne : hd.1 ≠ k' := by rw [hk]; exact h
      rw [show mapDelete (hd :: tl) k = mapDelete tl k from by simp [mapDelete, hk],
        ih]
      simp [mapLookup, hne]
    · by_cases hk' : hd.1 = k'
      · rw [show mapDelete (hd :: tl) k = hd :: mapDelete tl k from by
          simp [mapDelete, hk]]
        simp [mapLookup, hk']
      · rw [show mapDelete (hd :: tl) k = hd :: mapDelete tl k from by
          simp [mapDelete, hk]]
        simp [mapLookup, hk', ih]

theorem mapLookup_foldl_insert_not_mem (l : List (K × V)) (acc : List (K × V))
    (k : K) (h : k ∉ l.map Prod.fst) :
    mapLookup (l.foldl (fun acc kv => mapInsert acc kv.1 kv.2) acc) k =
      mapLookup acc k := by
  induction l generalizing acc with
  | nil => rfl
  | cons hd tl ih =>
    simp only [List.map_cons, List.mem_cons, not_or] at h
    rw [List.foldl_cons, ih _ h.2, mapLookup_mapInsert_ne _ _ _ _ (fun he => h.1 he.symm)]

theorem mapLookup_foldl_insert_const (l : List (K × V)) (acc : List (K × V))
    (k : K) (c : V) (hmem : k ∈ l.map Prod.fst) (hconst : ∀ kv ∈ l, kv.2 = c) :
    mapLookup (l.foldl (fun acc kv => mapInsert acc kv.1 kv.2) acc) k = some c := by
  induction l generalizing acc with
  | nil => simp at hmem
  | cons hd tl ih =>
    by_cases htl : k ∈ tl.map Prod.fst
    · exact List.foldl_cons _ _ ▸ ih _ htl (fun kv hkv => hconst kv (List.mem_cons_of_mem _ hkv))
    · have hk : hd.1 = k := by
        simp only [List.map_cons, List.mem_cons] at hmem
        exact (hmem.resolve_right htl).symm
      have hv : hd.2 = c := hconst hd (List.mem_cons_self _ _)
      rw [List.foldl_cons, mapLookup_foldl_insert_not_mem _ _ _ htl, hk, hv,
        mapLookup_mapInsert_self]

theorem mapLookup_mergeMaps_const (m1 m2 : List (K × V)) (k : K) (c : V)
    (hmem : k ∈ m2.map Prod.fst) (hconst : ∀ kv ∈ m2, kv.2 = c) :
    mapLookup (mergeMaps m1 m2) k = some c :=
  mapLookup_foldl_insert_const m2 _ k c hmem hconst

theorem mapLookup_map_const {W : Type} (l : List (K × W)) (k : K) (c : V)
    (s : V) (h : mapLookup (l.map fun kv => (kv.1, c)) k = some s) : s = c := by
  induction l with
  | nil => simp [mapLookup] at h
  | cons hd tl ih =>
    by_cases hk : hd.1 = k
    · simp [mapLookup, hk] at h
      exact h.symm
    · rw [List.map_cons] at h
      simp only [mapLookup, hk, if_false] at h
      exact ih h

end MapLemmas

theorem handleASMFeaturesLoop_rulesManager (a : AppsecState) (env : Env)
    (items : List (String × Option RawPayload)) (statuses : StatusMap) :
    (handleASMFeaturesLoop a env items statuses).1.rulesManager = a.rulesManager := by
  induction items generalizing a statuses with
  | nil => rfl
  | cons hd tl ih =>
    obtain ⟨path, raw⟩ := hd
    match raw with
    | none => rfl
    | some payload =>
      simp only [handleASMFeaturesLoop]
      match payload.parseFeatures with
      | Except.error e => exact ih _ _
      | Except.ok data =>
        by_cases h1 : data.ASM.Enabled && !a.started
        · simp only [h1, if_true]
          match env.start with
          | none => exact ih _ _
          | some e => exact ih _ _
        · by_cases h2 : !data.ASM.Enabled && a.started
          · simp only [h1, h2, if_false, if_true]
            exact ih _ _
          · simp only [h1, h2, if_false]
            exact ih _ _

theorem handleASMFeatures_rulesManager (a : AppsecState) (env : Env)
    (u : ProductUpdate) :
    (handleASMFeatures a env u).1.rulesManager = a.rulesManager := by
  unfold handleASMFeatures
  by_cases h : 1 < u.length
  · simp [h]
  · simp only [h, if_false]
    exact handleASMFeaturesLoop_rulesManager _ _ _ _

theorem onRCUpdateStage_rulesManager (a : AppsecState) (env : Env)
    (updates : UpdateMap) :
    (onRCUpdateStage a env updates).state.rulesManager = a.rulesManager := by
  unfold onRCUpdateStage
  match h : mapLookup updates ProductASMFeatures with
  | some u =>
    simp only [h]
    exact handleASMFeatures_rulesManager _ _ _
  | none => simp [h]

theorem onRCUpdateStage_updates (a : AppsecState) (env : Env)
    (updates : UpdateMap) :
    (onRCUpdateStage a env updates).updates =
      match mapLookup updates ProductASMFeatures with
      | some _ => mapDelete updates ProductASMFeatures
      | none => updates := by
  unfold onRCUpdateStage
  match h : mapLookup updates ProductASMFeatures with
  | some u => simp [h]
  | none => simp [h]

theorem mergeRulesDataLoop_fst_statuses_irrelevant
    (items : List (String × Option RawPayload)) (all : AllRulesData)
    (st st' : StatusMap) :
    (mergeRulesDataLoop items all st).1 = (mergeRulesDataLoop items all st').1 := by
  induction items generalizing all st st' with
  | nil => rfl
  | cons hd tl ih =>
    obtain ⟨path, raw⟩ := hd
    match raw with
    | none => exact ih _ _ _
    | some payload =>
      simp only [mergeRulesDataLoop]
      match payload.parseRulesData with
      | Except.error e => exact ih _ _ _
      | Except.ok rd => exact ih _ _ _

theorem mergeRulesDataLoop_fst_filter
    (items : List (String × Option RawPayload)) (all : AllRulesData)
    (st : StatusMap) :
    (mergeRulesDataLoop items all st).1 =
      (mergeRulesDataLoop (items.filter fun kv => kv.2.isSome) all st).1 := by
  induction items generalizing all st with
  | nil => rfl
  | cons hd tl ih =>
    obtain ⟨path, raw⟩ := hd
    match raw with
    | none =>
      rw [show ((path, (none : Option RawPayload)) :: tl).filter
            (fun kv => kv.2.isSome) = tl.filter (fun kv => kv.2.isSome) from by
          simp [List.filter]]
      rw [show mergeRulesDataLoop ((path, none) :: tl) all st =
            mergeRulesDataLoop tl all
              (mapInsert st path (genApplyStatus false none)) from rfl]
      rw [mergeRulesDataLoop_fst_statuses_irrelevant tl all _ st]
      exact ih _ _
    | some payload =>
      rw [show ((path, some payload) :: tl).filter (fun kv => kv.2.isSome) =
            (path, some payload) :: tl.filter (fun kv => kv.2.isSome) from by
          simp [List.filter]]
      simp only [mergeRulesDataLoop]
      match payload.parseRulesData with
      | Except.error e => exact ih _ _
      | Except.ok rd => exact ih _ _

theorem mergeRulesDataLoop_statuses_not_mem
    (items : List (String × Option RawPayload)) (all : AllRulesData)
    (st : StatusMap) (p : String) (h : p ∉ items.map Prod.fst) :
    mapLookup (mergeRulesDataLoop items all st).2 p = mapLookup st p := by
  induction items generalizing all st with
  | nil => rfl
  | cons hd tl ih =>
    simp only [List.map_cons, List.mem_cons, not_or] at h
    obtain ⟨path, raw⟩ := hd
    have hne : path ≠ p := fun he => h.1 he.symm
    match raw with
    | none =>
      rw [show mergeRulesDataLoop ((path, none) :: tl) all st =
            mergeRulesDataLoop tl all
              (mapInsert st path (genApplyStatus false none)) from rfl,
        ih _ _ h.2, mapLookup_mapInsert_ne _ _ _ _ hne]
    | some payload =>
      simp only [mergeRulesDataLoop]
      match payload.parseRulesData with
      | Except.error e =>
        rw [ih _ _ h.2, mapLookup_mapInsert_ne _ _ _ _ hne]
      | Except.ok rd => exact ih _ _ h.2

theorem mergeRulesDataLoop_statuses_nil_config
    (items : List (String × Option RawPayload)) (all : AllRulesData)
    (st : StatusMap) (path : String)
    (hmem : (path, (none : Option RawPayload)) ∈ items)
    (hnd : (items.map Prod.fst).Nodup) :
    mapLookup (mergeRulesDataLoop items all st).2 path =
      some (genApplyStatus false none) := by
  induction items generalizing all st with
  | nil => simp at hmem
  | cons hd tl ih =>
    rw [List.map_cons, List.nodup_cons] at hnd
    rcases List.mem_cons.1 hmem with hhd | htl
    · have hpath : hd = (path, none) := hhd.symm
      subst hpath
      rw [show mergeRulesDataLoop ((path, none) :: tl) all st =
            mergeRulesDataLoop tl all
              (mapInsert st path (genApplyStatus false none)) from rfl,
        mergeRulesDataLoop_statuses_not_mem tl all _ path hnd.1,
        mapLookup_mapInsert_self]
    · obtain ⟨p0, raw⟩ := hd
      match raw with
      | none =>
        rw [show mergeRulesDataLoop ((p0, none) :: tl) all st =
              mergeRulesDataLoop tl all
                (mapInsert st p0 (genApplyStatus false none)) from rfl]
        exact ih _ _ htl hnd.2
      | some payload =>
        simp only [mergeRulesDataLoop]
        match payload.parseRulesData with
        | Except.error e => exact ih _ _ htl hnd.2
        | Except.ok rd => exact ih _ _ htl hnd.2

theorem option_isSome_iff_ne_none {V : Type} (o : Option V) :
    o.isSome = true ↔ o ≠ none := by
  cases o <;> simp

theorem string_length_pos_iff (s : String) : 0 < s.length ↔ s ≠ "" := by
  obtain ⟨data⟩ := s
  match data with
  | [] => simp [String.length]
  | c :: tl =>
    constructor
    · intro _ he
      exact List.noConfusion (congrArg String.data he)
    · intro _
      simp [String.length]

/-- C2 (code_bug evaluation): on the failing input the pairwise rules-data
merge is neither commutative nor zero-expiration-dominant — merging
`\x7bvalue: "x", expiration: 0\x7d` (first argument) with
`\x7bvalue: "x", expiration: 9999\x7d` (second argument) keeps 9999, because
the replacement test `entry.Expiration > exp` is not guarded against the
stored expiration being 0; the reversed order keeps 0 as the specification
demands. -/
theorem C2_zero_expiration_loses :
    mergeRulesDataEntries [{ Value := "x", Expiration := 0 }]
        [{ Value := "x", Expiration := 9999 }] =
      [{ Value := "x", Expiration := 9999 }] ∧
    mergeRulesDataEntries [{ Value := "x", Expiration := 9999 }]
        [{ Value := "x", Expiration := 0 }] =
      [{ Value := "x", Expiration := 0 }] :=
  ⟨rfl, rfl⟩

/-- C9 (counterexample): `validate` as the claim states it is not an iff — a
fragment whose single overrides entry has an empty identifier and an
empty-but-present target list passes the source's `validate` (which only
tests `RulesTarget != nil`) while the claimed characterization (non-empty
identifier or non-empty target list) rejects it. -/
theorem C9_validate_counterexample :
    fEmptyTarget.validate = true ∧ specFragmentValid fEmptyTarget = false :=
  ⟨rfl, rfl⟩

/-- C9 (amended): `validate` returns true iff every overrides entry carries a
non-empty identifier or a present (possibly empty) target list, and every
exclusions entry carries at least one of a non-empty conditions list, a
non-empty inputs list, or a non-empty target list. -/
theorem C9_validate_iff (r_ : rulesetFragment) :
    r_.validate = true ↔
      ((∀ o ∈ r_.Overrides, o.ID ≠ "" ∨ o.RulesTarget ≠ none) ∧
       (∀ e ∈ r_.Exclusions,
         e.Conditions ≠ [] ∨ e.Inputs ≠ [] ∨ e.RulesTarget ≠ [])) := by
  simp only [rulesetFragment.validate, Bool.and_eq_true, List.all_eq_true,
    rulesOverrideEntry.validate, exclusionEntry.validate, Bool.or_eq_true,
    decide_eq_true_eq, option_isSome_iff_ne_none, string_length_pos_iff,
    List.length_pos]
  constructor
  · rintro ⟨h1, h2⟩
    refine ⟨h1, fun e he => ?_⟩
    rcases h2 e he with (h | h) | h <;> tauto
  · rintro ⟨h1, h2⟩
    refine ⟨h1, fun e he => ?_⟩
    rcases h2 e he with h | h | h <;> tauto

/-- C3 (counterexample): with the unspecified iteration order of Go's `range`
over the `edits` map made explicit, two admissible orders (both permutations
of the key set of `r0.edits`) drive `compile()` to serialized outputs that
are not byte-identical: the appended override entries of the two edits come
out in different list orders. -/
theorem C3_compile_order_dependent :
    (["a", "b"] : List String).Perm (r0.edits.map Prod.fst) ∧
    (["b", "a"] : List String).Perm (r0.edits.map Prod.fst) ∧
    (r0.compileWithOrder ["a", "b"]).raw ≠ (r0.compileWithOrder ["b", "a"]).raw :=
  ⟨by decide, by decide, by decide⟩

/-- C3 (amended): `compile()` followed by `raw()` is a deterministic pure
function of the base, the edits, and the edit-iteration order — recompiling
the compiled ruleset with the same iteration order yields byte-identical
serialized output. -/
theorem C3_compile_fixed_order_deterministic (r : ruleset) (o : List String) :
    ((r.compileWithOrder o).compileWithOrder o).raw = (r.compileWithOrder o).raw := by
  have hdef : defaultRulesFragment.Rules.isEmpty = false := rfl
  by_cases h : r.base.Rules.isEmpty
  · simp [ruleset.raw, ruleset.compileWithOrder, h, hdef]
  · simp [ruleset.raw, ruleset.compileWithOrder, h]

theorem onRCUpdate_updates (a : AppsecState) (env : Env) (updates : UpdateMap) :
    (onRCUpdate a env updates).2.2 = (onRCUpdateStage a env updates).updates := by
  unfold onRCUpdate
  cases env.swapWAF (onRCUpdateStage a env updates).working.raw <;> rfl

theorem mergeRulesData_eq (u : ProductUpdate) :
    mergeRulesData u =
      ((mergeRulesDataLoop u [] (statusesFromUpdate u true none)).1.foldl
        (fun acc kv => acc ++ kv.2.map Prod.snd) [],
       (mergeRulesDataLoop u [] (statusesFromUpdate u true none)).2) := by
  unfold mergeRulesData
  rcases hl : mergeRulesDataLoop u [] (statusesFromUpdate u true none) with ⟨all, st⟩
  rfl

/-- C4 (code_bug evaluation): an ASM config whose payload parses to a
fragment that fails structural validation — a single override with an empty
identifier and a nil target list — is left with state acknowledged (the
unmarshalling error passed to `genApplyStatus` is nil on this branch), and
`addEdit` is not called (the ruleset is unchanged); the claim and spec say
the status must be error. -/
theorem C4_validation_failure_acknowledged :
    fInvalid.validate = false ∧
    (processProduct r0 [] ProductASM [("cfg", some pInvalid)]).2 =
      [("cfg", { State := ApplyState.acknowledged, Error := "" })] ∧
    (processProduct r0 [] ProductASM [("cfg", some pInvalid)]).1 = r0 :=
  ⟨rfl, rfl, rfl⟩

/-- C5 (counterexample): a rules-data config whose payload is a removal
marker receives state unacknowledged, not the claimed acknowledged — the
source calls `genApplyStatus(false, nil)` on the nil branch. -/
theorem C5_nil_config_not_acknowledged :
    mapLookup (mergeRulesData [("c", none)]).2 "c" =
      some { State := ApplyState.unacknowledged, Error := "" } ∧
    ApplyState.unacknowledged ≠ ApplyState.acknowledged :=
  ⟨rfl, by decide⟩

/-- C5 (amended): a rules-data config whose payload is a removal marker
contributes no entries to the merged result (the merged entries equal those
of the batch restricted to non-nil configs) and its status has state
unacknowledged with no error. -/
theorem C5_nil_config_unacknowledged_and_inert (u : ProductUpdate)
    (path : String) (hmem : (path, (none : Option RawPayload)) ∈ u)
    (hnd : (u.map Prod.fst).Nodup) :
    mapLookup (mergeRulesData u).2 path =
      some { State := ApplyState.unacknowledged, Error := "" } ∧
    (mergeRulesData u).1 =
      (mergeRulesData (u.filter fun kv => kv.2.isSome)).1 := by
  constructor
  · rw [mergeRulesData_eq]
    exact mergeRulesDataLoop_statuses_nil_config u []
      (statusesFromUpdate u true none) path hmem hnd
  · rw [mergeRulesData_eq, mergeRulesData_eq,
      mergeRulesDataLoop_fst_filter u [] (statusesFromUpdate u true none),
      mergeRulesDataLoop_fst_statuses_irrelevant
        (u.filter fun kv => kv.2.isSome) [] (statusesFromUpdate u true none)
        (statusesFromUpdate (u.filter fun kv => kv.2.isSome) true none)]

/-- C5 (witness): the amended claim applied to the concrete batch `uData`
whose first config is a removal marker. -/
theorem C5_nil_config_unacknowledged_and_inert_witness :
    (("c", (none : Option RawPayload)) ∈ uData ∧ (uData.map Prod.fst).Nodup) ∧
    mapLookup (mergeRulesData uData).2 "c" =
      some { State := ApplyState.unacknowledged, Error := "" } ∧
    (mergeRulesData uData).1 =
      (mergeRulesData (uData.filter fun kv => kv.2.isSome)).1 :=
  ⟨⟨List.mem_cons_self _ _, by decide⟩,
    C5_nil_config_unacknowledged_and_inert uData "c"
      (List.mem_cons_self _ _) (by decide)⟩

/-- C6 (counterexample): a batch holding a single config in an unrecognized
category returns a status map with no entry for that config at all — not an
unacknowledged entry as the claim states. -/
theorem C6_unknown_category_no_status :
    mapLookup (onRCUpdate a0 envAccept
      [("MYSTERY", [("cfgU", some pGood)])]).2.1 "cfgU" = none :=
  rfl

/-- C6 (amended): a category the dispatcher does not recognize is skipped
entirely: it neither mutates the working ruleset nor contributes any status
entries, so its configs receive no status at all (rather than unacknowledged
entries); configs of recognized categories are reported per their handlers. -/
theorem C6_unrecognized_category_ignored (r : ruleset) (st : StatusMap)
    (p : String) (u : ProductUpdate) (h1 : p ≠ ProductASMData)
    (h2 : p ≠ ProductASMDD) (h3 : p ≠ ProductASM) :
    processProduct r st p u = (r, st) := by
  simp [processProduct, h1, h2, h3]

/-- C6 (witness): the amended claim applied to the concrete unrecognized
category MYSTERY. -/
theorem C6_unrecognized_category_ignored_witness :
    (("MYSTERY" : String) ≠ ProductASMData ∧
     ("MYSTERY" : String) ≠ ProductASMDD ∧
     ("MYSTERY" : String) ≠ ProductASM) ∧
    processProduct r0 [] "MYSTERY" [("cfgU", some pGood)] = (r0, []) :=
  ⟨⟨by decide, by decide, by decide⟩,
    C6_unrecognized_category_ignored r0 [] "MYSTERY" [("cfgU", some pGood)]
      (by decide) (by decide) (by decide)⟩

/-- C7: an ASM_DD category carrying more than one config leaves the working
ruleset (in particular its base and basePath) entirely unchanged and gives
every config of the category an error status carrying the
more-than-one-config message. -/
theorem C7_multiple_asmdd_rejected (r : ruleset) (st : StatusMap)
    (u : ProductUpdate) (h : 1 < u.length) :
    (processProduct r st ProductASMDD u).1 = r ∧
    ∀ path ∈ u.map Prod.fst,
      mapLookup (processProduct r st ProductASMDD u).2 path =
        some { State := ApplyState.error,
               Error := "More than one config received for ASM_DD" } := by
  have hred : processProduct r st ProductASMDD u =
      (r, mergeMaps st (statusesFromUpdate u true
        (some "More than one config received for ASM_DD"))) := by
    unfold processProduct
    rw [if_neg (by decide : ¬ (ProductASMDD = ProductASMData)), if_pos rfl,
      if_pos h]
  rw [hred]
  refine ⟨rfl, fun path hpath => ?_⟩
  apply mapLookup_mergeMaps_const
  · simpa [statusesFromUpdate] using hpath
  · intro kv hkv
    simp only [statusesFromUpdate, List.mem_map] at hkv
    obtain ⟨kv0, _, hkv0⟩ := hkv
    rw [← hkv0]
    rfl

/-- C7 (witness): the single-base constraint applied to the concrete
two-config ASM_DD category `uTwoDD`. -/
theorem C7_multiple_asmdd_rejected_witness :
    (1 < uTwoDD.length) ∧
    (processProduct r0 [] ProductASMDD uTwoDD).1 = r0 ∧
    mapLookup (processProduct r0 [] ProductASMDD uTwoDD).2 "p1" =
      some { State := ApplyState.error,
             Error := "More than one config received for ASM_DD" } :=
  ⟨by decide, (C7_multiple_asmdd_rejected r0 [] uTwoDD (by decide)).1,
    (C7_multiple_asmdd_rejected r0 [] uTwoDD (by decide)).2 "p1" (by decide)⟩

/-- C8 (counterexample): on a batch holding an activation-toggle removal
marker plus an ordinary ASM edit config, the engine is stopped and the
toggle config stays unacknowledged — but the rest of the batch IS processed:
the ASM config ends up acknowledged and its edit is staged and committed,
contradicting the claimed whole-batch short-circuit. -/
theorem C8_batch_not_short_circuited :
    (onRCUpdate a0 envAccept upd8).1.started = false ∧
    mapLookup (onRCUpdate a0 envAccept upd8).2.1 "cfgF" =
      some { State := ApplyState.unacknowledged, Error := "" } ∧
    mapLookup (onRCUpdate a0 envAccept upd8).2.1 "cfgA" =
      some { State := ApplyState.acknowledged, Error := "" } ∧
    mapLookup (onRCUpdate a0 envAccept upd8).1.rulesManager.edits "cfgA" =
      some fragA :=
  ⟨rfl, rfl, rfl, rfl⟩

/-- C8 (amended): a nil payload for the activation-toggle config stops the
engine and leaves that config's status unacknowledged with no error, and
only the remainder of the ASM_FEATURES category itself is skipped — the
other categories of the batch are still processed. -/
theorem C8_nil_features_stops_engine (a : AppsecState) (env : Env)
    (path : String) :
    handleASMFeatures a env [(path, none)] =
      ({ a with started := false },
       [(path, { State := ApplyState.unacknowledged, Error := "" })]) :=
  rfl

/-- C1: when the hand-off of the compiled serialized document to the
rule-evaluation engine fails, every status in the returned map has state
error carrying the hand-off error, and the committed ruleset
(`a.cfg.rulesManager`) after the batch is identical to its value before the
batch. -/
theorem C1_swap_failure_rollback (a : AppsecState) (env : Env)
    (updates : UpdateMap) (e : String)
    (h : env.swapWAF (onRCUpdateStage a env updates).working.raw = some e) :
    (onRCUpdate a env updates).1.rulesManager = a.rulesManager ∧
    ∀ k s, mapLookup (onRCUpdate a env updates).2.1 k = some s →
      s.State = ApplyState.error ∧ s.Error = e := by
  have hred : onRCUpdate a env updates =
      ((onRCUpdateStage a env updates).state,
       (onRCUpdateStage a env updates).statuses.map
         (fun kv => (kv.1, genApplyStatus true (some e))),
       (onRCUpdateStage a env updates).updates) := by
    unfold onRCUpdate
    rw [h]
  rw [hred]
  refine ⟨onRCUpdateStage_rulesManager a env updates, fun k s hs => ?_⟩
  rw [mapLookup_map_const _ k (genApplyStatus true (some e)) s hs]
  exact ⟨rfl, rfl⟩

/-- C1 (witness): the rollback applied to the concrete batch `updC1` against
an engine that rejects every document. -/
theorem C1_swap_failure_rollback_witness :
    (envReject.swapWAF (onRCUpdateStage a0 envReject updC1).working.raw =
      some "waf rejected") ∧
    (onRCUpdate a0 envReject updC1).1.rulesManager = a0.rulesManager ∧
    (({ State := ApplyState.error, Error := "waf rejected" } : ApplyStatus).State =
        ApplyState.error ∧
     ({ State := ApplyState.error, Error := "waf rejected" } : ApplyStatus).Error =
        "waf rejected") :=
  ⟨rfl, (C1_swap_failure_rollback a0 envReject updC1 "waf rejected" rfl).1,
    (C1_swap_failure_rollback a0 envReject updC1 "waf rejected" rfl).2 "cfgA"
      { State := ApplyState.error, Error := "waf rejected" } rfl⟩

/-- C10: `onRCUpdate` mutates the caller's batch map: when the batch holds
the activation-toggle category, that key is gone from the map after the call
while every other category key keeps its binding. -/
theorem C10_updates_map_mutation (a : AppsecState) (env : Env)
    (updates : UpdateMap) (u : ProductUpdate)
    (h : mapLookup updates ProductASMFeatures = some u) :
    mapLookup (onRCUpdate a env updates).2.2 ProductASMFeatures = none ∧
    ∀ p, p ≠ ProductASMFeatures →
      mapLookup (onRCUpdate a env updates).2.2 p = mapLookup updates p := by
  have hupd : (onRCUpdate a env updates).2.2 =
      mapDelete updates ProductASMFeatures := by
    rw [onRCUpdate_updates, onRCUpdateStage_updates, h]
  rw [hupd]
  exact ⟨mapLookup_mapDelete_self _ _,
    fun p hp => mapLookup_mapDelete_ne _ _ _ (fun he => hp he.symm)⟩

/-- C10 (witness): the mutation applied to the concrete batch `upd8`, whose
other category key ASM keeps its binding. -/
theorem C10_updates_map_mutation_witness :
    (mapLookup upd8 ProductASMFeatures = some [("cfgF", none)]) ∧
    mapLookup (onRCUpdate a0 envAccept upd8).2.2 ProductASMFeatures = none ∧
    mapLookup (onRCUpdate a0 envAccept upd8).2.2 ProductASM =
      mapLookup upd8 ProductASM :=
  ⟨rfl, (C10_updates_map_mutation a0 envAccept upd8 [("cfgF", none)] rfl).1,
    (C10_updates_map_mutation a0 envAccept upd8 [("cfgF", none)] rfl).2
      ProductASM (by decide)⟩

end DDTrace
